import Mathlib

/-!
Verification of the day-17 register-machine interpreter and its reverse
search (src/day17/src/main.rs).  The Rust code is shallowly embedded:
`u64` registers become `Nat` (no arithmetic in the program overflows a
`u64` except the `2_u64.pow` exponentiation, which is modelled
explicitly), panics become `Option`/dedicated failure constructors, and
the two unbounded `while` loops become fuel-indexed structural
recursions so that all definitions evaluate by kernel reduction.
-/

/-- Embeds `struct LiteralOperand(u8)`. -/
structure LiteralOperand where
  val : Nat
deriving DecidableEq

/-- Embeds `struct ComboOperand(u8)`. -/
structure ComboOperand where
  val : Nat
deriving DecidableEq

/-- Embeds `struct UnusedOperand(u8)`. -/
structure UnusedOperand where
  val : Nat
deriving DecidableEq

/-- Embeds `LiteralOperand::value`: the literal operand's own value. -/
def LiteralOperand.value (l : LiteralOperand) : Nat :=
  l.val

/-- Embeds `enum Instruction`, one constructor per opcode. -/
inductive Instruction where
  | Adv : ComboOperand → Instruction
  | Bxl : LiteralOperand → Instruction
  | Bst : ComboOperand → Instruction
  | Jnz : LiteralOperand → Instruction
  | Bxc : UnusedOperand → Instruction
  | Out : ComboOperand → Instruction
  | Bdv : ComboOperand → Instruction
  | Cdv : ComboOperand → Instruction
deriving DecidableEq

/-- Embeds `Instruction::parse`.  The Rust function panics on an opcode
outside `[0,7]` (the `_o => panic!` arm), which is modelled as `none`. -/
def Instruction.parse (opcode operand : Nat) : Option Instruction :=
  match opcode with
  | 0 => some (.Adv ⟨operand⟩)
  | 1 => some (.Bxl ⟨operand⟩)
  | 2 => some (.Bst ⟨operand⟩)
  | 3 => some (.Jnz ⟨operand⟩)
  | 4 => some (.Bxc ⟨operand⟩)
  | 5 => some (.Out ⟨operand⟩)
  | 6 => some (.Bdv ⟨operand⟩)
  | 7 => some (.Cdv ⟨operand⟩)
  | _ => none

/-- Embeds `Instruction::as_numbers`: the `(opcode, operand)` pair an
instruction represents. -/
def Instruction.as_numbers : Instruction → Nat × Nat
  | .Adv combo => (0, combo.val)
  | .Bxl literal => (1, literal.val)
  | .Bst combo => (2, combo.val)
  | .Jnz literal => (3, literal.val)
  | .Bxc unused => (4, unused.val)
  | .Out combo => (5, combo.val)
  | .Bdv combo => (6, combo.val)
  | .Cdv combo => (7, combo.val)

/-- Statement vocabulary: recognizes the conditional-jump instruction. -/
def Instruction.is_jnz : Instruction → Bool
  | .Jnz _ => true
  | _ => false

/-- Embeds `struct Computer`. -/
structure Computer where
  register_a : Nat
  register_b : Nat
  register_c : Nat
  instructions : List Instruction
  pointer : Nat
  output : List Nat
deriving DecidableEq

/-- Embeds `Computer::get_combo_operand_value`.  The Rust `match` arms
`0..=3`, `4`, `5`, `6` are value / register lookups; the wildcard arm
panics ("Encounter unrecognized combo operand"), modelled as `none`. -/
def Computer.get_combo_operand_value (c : Computer) (combo : ComboOperand) : Option Nat :=
  if combo.val ≤ 3 then some combo.val
  else if combo.val = 4 then some c.register_a
  else if combo.val = 5 then some c.register_b
  else if combo.val = 6 then some c.register_c
  else none

/-- Embeds `Computer::perform_adv`: `A ← A / 2^combo()`.  The Rust code
casts the combo value with `as u32` (modelled by `% 2 ^ 32`) and then
computes `2_u64.pow(exp)`, which is fatal for `exp ≥ 64` (overflow panic
with debug assertions; wrap to `0` and a division-by-zero panic without
them), modelled as `none`. -/
def Computer.perform_adv (c : Computer) (combo : ComboOperand) : Option (Computer × Bool) :=
  match c.get_combo_operand_value combo with
  | none => none
  | some v =>
    let exp := v % 2 ^ 32
    if exp < 64 then some ({ c with register_a := c.register_a / 2 ^ exp }, true) else none

/-- Embeds `Computer::perform_bxl`: `B ← B XOR lit()`. -/
def Computer.perform_bxl (c : Computer) (literal : LiteralOperand) : Option (Computer × Bool) :=
  some ({ c with register_b := c.register_b ^^^ literal.value }, true)

/-- Embeds `Computer::perform_bst`: `B ← combo() % 8`. -/
def Computer.perform_bst (c : Computer) (combo : ComboOperand) : Option (Computer × Bool) :=
  match c.get_combo_operand_value combo with
  | none => none
  | some v => some ({ c with register_b := v % 8 }, true)

/-- Embeds `Computer::perform_jnz`: if `A = 0` the pointer will advance
normally; otherwise the pointer is set to the literal operand and not
advanced. -/
def Computer.perform_jnz (c : Computer) (literal : LiteralOperand) : Option (Computer × Bool) :=
  if c.register_a = 0 then some (c, true)
  else some ({ c with pointer := literal.value }, false)

/-- Embeds `Computer::perform_bxc`: `B ← B XOR C`. -/
def Computer.perform_bxc (c : Computer) : Option (Computer × Bool) :=
  some ({ c with register_b := c.register_b ^^^ c.register_c }, true)

/-- Embeds `Computer::perform_out`: append `combo() % 8` to the output. -/
def Computer.perform_out (c : Computer) (combo : ComboOperand) : Option (Computer × Bool) :=
  match c.get_combo_operand_value combo with
  | none => none
  | some v => some ({ c with output := c.output ++ [v % 8] }, true)

/-- Embeds `Computer::perform_bdv`: `B ← A / 2^combo()` (numerator is
register A).  Same exponent modelling as `perform_adv`. -/
def Computer.perform_bdv (c : Computer) (combo : ComboOperand) : Option (Computer × Bool) :=
  match c.get_combo_operand_value combo with
  | none => none
  | some v =>
    let exp := v % 2 ^ 32
    if exp < 64 then some ({ c with register_b := c.register_a / 2 ^ exp }, true) else none

/-- Embeds `Computer::perform_cdv`: `C ← A / 2^combo()` (numerator is
register A, result stored in register C).  Same exponent modelling as
`perform_adv`. -/
def Computer.perform_cdv (c : Computer) (combo : ComboOperand) : Option (Computer × Bool) :=
  match c.get_combo_operand_value combo with
  | none => none
  | some v =>
    let exp := v % 2 ^ 32
    if exp < 64 then some ({ c with register_c := c.register_a / 2 ^ exp }, true) else none

/-- Embeds `Computer::fetch_instruction`: `self.instructions.get(self.pointer)`. -/
def Computer.fetch_instruction (c : Computer) : Option Instruction :=
  c.instructions[c.pointer]?

/-- Embeds `Computer::execute_instruction`: dispatch to the `perform_*`
method for the instruction, then advance the pointer if requested. -/
def Computer.execute_instruction (c : Computer) (instruction : Instruction) : Option Computer :=
  match
    (match instruction with
      | .Adv op => c.perform_adv op
      | .Bxl op => c.perform_bxl op
      | .Bst op => c.perform_bst op
      | .Jnz op => c.perform_jnz op
      | .Bxc _ => c.perform_bxc
      | .Out op => c.perform_out op
      | .Bdv op => c.perform_bdv op
      | .Cdv op => c.perform_cdv op)
  with
  | none => none
  | some (c₁, advance_pointer) =>
    some (if advance_pointer then { c₁ with pointer := c₁.pointer + 1 } else c₁)

/-- Result of running the fetch-execute loop of `Computer::run_program`.
`fatal` models a panic during execution; `timeout` is a model artifact
of the fuel and never occurs with sufficient fuel. -/
inductive RunResult where
  | ok : Computer → RunResult
  | fatal : RunResult
  | timeout : RunResult
deriving DecidableEq

/-- Embeds the `while let Some(instruction) = self.fetch_instruction()`
loop of `Computer::run_program`, indexed by fuel. -/
def Computer.run_loop : Nat → Computer → RunResult
  | 0, _ => .timeout
  | fuel + 1, c =>
    match c.fetch_instruction with
    | none => .ok c
    | some i =>
      match c.execute_instruction i with
      | none => .fatal
      | some c₁ => Computer.run_loop fuel c₁

/-- Instrumented variant of `Computer.run_loop` that also records the
list of instructions executed, in order (one entry per fetch-execute
step, including a final fatal step). -/
def Computer.run_loop_trace : Nat → Computer → RunResult × List Instruction
  | 0, _ => (.timeout, [])
  | fuel + 1, c =>
    match c.fetch_instruction with
    | none => (.ok c, [])
    | some i =>
      match c.execute_instruction i with
      | none => (.fatal, [i])
      | some c₁ =>
        let r := Computer.run_loop_trace fuel c₁
        (r.1, i :: r.2)

/-- Embeds `Computer::create_output`: comma-joined decimal output. -/
def Computer.create_output (c : Computer) : String :=
  String.intercalate "," (c.output.map (fun o => toString o))

/-- Embeds `Computer::run_program`: run the loop to completion and
format the output. -/
def Computer.run_program (fuel : Nat) (c : Computer) : Option String :=
  match Computer.run_loop fuel c with
  | .ok c₁ => some c₁.create_output
  | _ => none

/-- Result of `Computer::run_program_once`.  `emitted c d` is a normal
return (machine state `c`, returned digit `d`); `fatal c` covers the two
panics of the Rust function (`output.last().unwrap()` on an empty output
at a stop point, and the `panic!("Could not get output number for this
cycle")` after the loop) as well as a panic inside execution; `timeout`
is a fuel artifact. -/
inductive OnceResult where
  | emitted : Computer → Nat → OnceResult
  | fatal : Computer → OnceResult
  | timeout : OnceResult
deriving DecidableEq

/-- Embeds the loop of `Computer::run_program_once`: execute an
instruction, then return the last output number once the pointer has
jumped back to `0` or reached `num_instructions`. -/
def Computer.run_once_loop (num_instructions : Nat) : Nat → Computer → OnceResult
  | 0, _ => .timeout
  | fuel + 1, c =>
    match c.fetch_instruction with
    | none => .fatal c
    | some i =>
      match c.execute_instruction i with
      | none => .fatal c
      | some c₁ =>
        if c₁.pointer = 0 ∨ c₁.pointer = num_instructions then
          match c₁.output.getLast? with
          | some d => .emitted c₁ d
          | none => .fatal c₁
        else Computer.run_once_loop num_instructions fuel c₁

/-- Embeds `Computer::run_program_once`: reset the pointer and the
output list, then run `run_once_loop`. -/
def Computer.run_program_once (fuel : Nat) (c : Computer) : OnceResult :=
  Computer.run_once_loop c.instructions.length fuel { c with pointer := 0, output := [] }

/-- Embeds `Computer::reverse_engineer_register_a`.  The recursion is
indexed by `dfuel`, a bound on the recursion depth (the caller passes
the length of the target list, which is exactly the depth used by the
Rust recursion).  The Rust `for a in new_register_a_base..bound_register_a`
loop over the eight candidate values, with its early `return` on
success, is expressed as a fold over `List.range 8` that threads the
(mutated) machine and short-circuits once an answer is found.  The
result mirrors the Rust `(bool, u64)` pair, together with the threaded
machine; `none` models a panic inside `run_program_once` (or fuel
exhaustion). -/
def Computer.reverse_engineer_register_a (fuel : Nat) :
    Nat → Computer → Nat → List Nat → Option (Computer × Bool × Nat)
  | 0, c, register_a, output =>
    match output with
    | [] => some (c, true, register_a)
    | _ :: _ => none
  | dfuel + 1, c, register_a, output =>
    match output with
    | [] => some (c, true, register_a)
    | _ :: _ =>
      let printout := output.getLast!
      let rest := output.dropLast
      (List.range 8).foldl
        (fun acc e =>
          match acc with
          | none => none
          | some (c₁, true, answer) => some (c₁, true, answer)
          | some (c₁, false, _) =>
            let a := register_a * 8 + e
            let c₂ := { c₁ with register_a := a }
            match Computer.run_program_once fuel c₂ with
            | .emitted c₃ printed =>
              if printed = printout then
                match Computer.reverse_engineer_register_a fuel dfuel c₃ a rest with
                | none => none
                | some (c₄, finished, answer) =>
                  if finished then some (c₄, true, answer)
                  else some (c₄, false, register_a)
              else some (c₃, false, register_a)
            | _ => none)
        (some (c, false, register_a))

/-- Embeds `Computer::find_self_outputing_register_a`: build the
flattened `(opcode, operand)` list of the program, run the reverse
search starting from `register_a = 0`, and return the second component
of the result (the Rust code returns `result.1`, discarding the
success flag `result.0`). -/
def Computer.find_self_outputing_register_a (fuel : Nat) (c : Computer) : Option Nat :=
  let output := c.instructions.foldr
    (fun i acc => (Instruction.as_numbers i).1 :: (Instruction.as_numbers i).2 :: acc) []
  match Computer.reverse_engineer_register_a fuel output.length c 0 output with
  | none => none
  | some (_, _, a) => some a

/-- The worked example program of the spec whose instruction encoding
is `[0,3,5,4,3,0]`: divide A by 8, emit A mod 8, loop while A ≠ 0. -/
def exampleProgram : List Instruction :=
  [.Adv ⟨3⟩, .Out ⟨4⟩, .Jnz ⟨0⟩]

/-- The output sequence a full run of `exampleProgram` produces from
initial register A value `a`: every cycle first divides A by 8 and then
emits the new A mod 8, halting once A has reached 0. -/
def selfOut (a : Nat) : List Nat :=
  if h : a / 8 = 0 then [0] else a / 8 % 8 :: selfOut (a / 8)
termination_by a
decreasing_by
  simp_wf
  omega

/-! ## Claim C6: jump-if-A semantics -/

/-- C6: executing the jump-if-A instruction when register A is 0
advances the pointer by exactly one and changes nothing else; when
register A is nonzero it sets the pointer to the literal operand's
value (and changes nothing else). -/
theorem claim6_jnz_semantics (c : Computer) (lit : LiteralOperand) :
    Computer.execute_instruction c (.Jnz lit) =
      some (if c.register_a = 0 then { c with pointer := c.pointer + 1 }
            else { c with pointer := lit.value }) := by
  by_cases h : c.register_a = 0 <;>
    simp [Computer.execute_instruction, Computer.perform_jnz, h]

/-! ## Claim C7: operand resolution -/

/-- C7: resolving a combo operand returns its own value for 0-3 and the
content of register A, B or C for 4, 5, 6 respectively; combo value 7 is
fatal (`none`); a literal operand resolves to its own encoded value and
never errors (`LiteralOperand.value` is total). -/
theorem claim7_operand_resolution (c : Computer) :
    c.get_combo_operand_value ⟨0⟩ = some 0 ∧
    c.get_combo_operand_value ⟨1⟩ = some 1 ∧
    c.get_combo_operand_value ⟨2⟩ = some 2 ∧
    c.get_combo_operand_value ⟨3⟩ = some 3 ∧
    c.get_combo_operand_value ⟨4⟩ = some c.register_a ∧
    c.get_combo_operand_value ⟨5⟩ = some c.register_b ∧
    c.get_combo_operand_value ⟨6⟩ = some c.register_c ∧
    c.get_combo_operand_value ⟨7⟩ = none ∧
    ∀ l : LiteralOperand, l.value = l.val := by
  refine ⟨?_, ?_, ?_, ?_, ?_, ?_, ?_, ?_, fun l => rfl⟩ <;>
    norm_num [Computer.get_combo_operand_value]

/-! ## Claim C8: decode/encode round trip -/

/-- C8: for every opcode in [0,7] and operand in [0,255], decoding the
pair with `Instruction.parse` and re-encoding with
`Instruction.as_numbers` yields the same pair. -/
theorem claim8_parse_roundtrip (opcode operand : Nat)
    (h₁ : opcode ≤ 7) (h₂ : operand ≤ 255) :
    (Instruction.parse opcode operand).map Instruction.as_numbers = some (opcode, operand) := by
  interval_cases opcode <;> rfl

/-- Witness for C8 at opcode 5, operand 200. -/
theorem claim8_parse_roundtrip_witness :
    (5 : Nat) ≤ 7 ∧ (200 : Nat) ≤ 255 ∧
    (Instruction.parse 5 200).map Instruction.as_numbers = some (5, 200) :=
  ⟨by decide, by decide, claim8_parse_roundtrip 5 200 (by decide) (by decide)⟩

/-! ## Claim C10: the decoder never validates the operand -/

/-- C10: for every opcode in [0,7] and every operand byte (including
combo value 7) decoding succeeds; the reserved combo operand is only
rejected later, by `Computer.get_combo_operand_value` during
execution. -/
theorem claim10_decoder_ignores_operand (opcode operand : Nat) (c : Computer)
    (h₁ : opcode ≤ 7) (h₂ : operand ≤ 255) :
    (Instruction.parse opcode operand).isSome = true ∧
    c.get_combo_operand_value ⟨7⟩ = none := by
  constructor
  · interval_cases opcode <;> rfl
  · norm_num [Computer.get_combo_operand_value]

/-- Witness for C10 at opcode 2, operand 7 (a `Bst` carrying the
reserved combo operand) on a concrete machine. -/
theorem claim10_decoder_ignores_operand_witness :
    (2 : Nat) ≤ 7 ∧ (7 : Nat) ≤ 255 ∧
    ((Instruction.parse 2 7).isSome = true ∧
      Computer.get_combo_operand_value ⟨9, 8, 7, [], 0, []⟩ ⟨7⟩ = none) :=
  ⟨by decide, by decide, claim10_decoder_ignores_operand 2 7 ⟨9, 8, 7, [], 0, []⟩
    (by decide) (by decide)⟩

/-! ## Claim C4: the divide-C instruction -/

/-- C4 counterexample: on the machine with A = 7, B = 99, C = 5,
executing `Cdv` with combo operand 1 stores `7 / 2 ^ 1 = 3` in register
C and leaves register B at 99; the claim's "stores the result in
register B" is false here (register B is not 3 after the step). -/
theorem claim4_counterexample :
    Computer.execute_instruction ⟨7, 99, 5, [.Cdv ⟨1⟩], 0, []⟩ (.Cdv ⟨1⟩) =
      some ⟨7, 99, 3, [.Cdv ⟨1⟩], 1, []⟩ ∧
    (99 : Nat) ≠ 7 / 2 ^ 1 := by
  decide

/-- C4 amended: for a combo value below the 64-bit register width,
executing the divide-C instruction computes `A / 2 ^ combo()` with
truncating division (numerator always register A) and stores the result
in register C, advancing the pointer. -/
theorem claim4_amended (c : Computer) (combo : ComboOperand) (v : Nat)
    (hv : c.get_combo_operand_value combo = some v) (h64 : v < 64) :
    Computer.execute_instruction c (.Cdv combo) =
      some { c with register_c := c.register_a / 2 ^ v, pointer := c.pointer + 1 } := by
  have hmod : v % 4294967296 = v := Nat.mod_eq_of_lt (by omega)
  simp [Computer.execute_instruction, Computer.perform_cdv, hv, hmod, h64]

/-- Witness for C4 amended at the machine of the counterexample. -/
theorem claim4_amended_witness :
    Computer.get_combo_operand_value ⟨7, 99, 5, [.Cdv ⟨1⟩], 0, []⟩ ⟨1⟩ = some 1 ∧
    (1 : Nat) < 64 ∧
    Computer.execute_instruction ⟨7, 99, 5, [.Cdv ⟨1⟩], 0, []⟩ (.Cdv ⟨1⟩) =
      some ⟨7, 99, 7 / 2 ^ 1, [.Cdv ⟨1⟩], 0 + 1, []⟩ :=
  ⟨by decide, by decide,
    claim4_amended ⟨7, 99, 5, [.Cdv ⟨1⟩], 0, []⟩ ⟨1⟩ 1 (by decide) (by decide)⟩

/-! ## Claim C2: the single-cycle runner -/

/-- C2 counterexample.  First part: on the program `Out 1; Out 2; Jnz 0`
with A = 1, `run_program_once` returns normally with return value 2
although two digits `[1, 2]` were emitted during the cycle — not
exactly one.  Second part: on the program `Out 1; Jnz 7` with A = 1 the
call is fatal (the pointer jumps to 7 and the fetch fails before any
stop condition holds) even though a digit had been emitted, so
fatality is not equivalent to "no digit was emitted". -/
theorem claim2_counterexample :
    Computer.run_program_once 20 ⟨1, 0, 0, [.Out ⟨1⟩, .Out ⟨2⟩, .Jnz ⟨0⟩], 0, []⟩ =
      OnceResult.emitted ⟨1, 0, 0, [.Out ⟨1⟩, .Out ⟨2⟩, .Jnz ⟨0⟩], 0, [1, 2]⟩ 2 ∧
    ([1, 2] : List Nat).length ≠ 1 ∧
    Computer.run_program_once 20 ⟨1, 0, 0, [.Out ⟨1⟩, .Jnz ⟨7⟩], 0, []⟩ =
      OnceResult.fatal ⟨1, 0, 0, [.Out ⟨1⟩, .Jnz ⟨7⟩], 7, [1]⟩ ∧
    ([1] : List Nat) ≠ [] := by
  decide

/-- Helper for C2: whenever the single-cycle loop returns normally, the
output accumulated at that point is nonempty and the returned digit is
its last element. -/
theorem run_once_loop_emitted_last (n fuel : Nat) :
    ∀ (c c' : Computer) (d : Nat),
      Computer.run_once_loop n fuel c = OnceResult.emitted c' d →
      c'.output ≠ [] ∧ c'.output.getLast? = some d := by
  induction fuel with
  | zero => intro c c' d h; simp [Computer.run_once_loop] at h
  | succ fuel ih =>
    intro c c' d h
    rw [Computer.run_once_loop] at h
    split at h
    · simp at h
    · split at h
      · simp at h
      · split at h
        · split at h
          · rename_i hlast
            injection h with h1 h2
            subst h1
            subst h2
            exact ⟨fun hnil => by simp [hnil] at hlast, hlast⟩
          · simp at h
        · exact ih _ _ _ h

/-- C2 amended: `run_program_once` resets the pointer and output and
executes until the pointer returns to 0 or equals the program length;
when it returns normally, at least one digit was emitted during that
cycle and the returned value is the last digit emitted (not necessarily
the only one).  Fatal outcomes (no digit emitted at a stop point, or
the pointer leaving the program before a stop point) return no digit. -/
theorem claim2_amended (fuel : Nat) (c c' : Computer) (d : Nat)
    (h : Computer.run_program_once fuel c = OnceResult.emitted c' d) :
    c'.output ≠ [] ∧ c'.output.getLast? = some d :=
  run_once_loop_emitted_last _ _ _ _ _ h

/-- Witness for C2 amended on the two-output program of the
counterexample. -/
theorem claim2_amended_witness :
    Computer.run_program_once 20 ⟨1, 0, 0, [.Out ⟨1⟩, .Out ⟨2⟩, .Jnz ⟨0⟩], 0, []⟩ =
      OnceResult.emitted ⟨1, 0, 0, [.Out ⟨1⟩, .Out ⟨2⟩, .Jnz ⟨0⟩], 0, [1, 2]⟩ 2 ∧
    (([1, 2] : List Nat) ≠ [] ∧ ([1, 2] : List Nat).getLast? = some 2) :=
  ⟨by decide,
    claim2_amended 20 ⟨1, 0, 0, [.Out ⟨1⟩, .Out ⟨2⟩, .Jnz ⟨0⟩], 0, []⟩
      ⟨1, 0, 0, [.Out ⟨1⟩, .Out ⟨2⟩, .Jnz ⟨0⟩], 0, [1, 2]⟩ 2 (by decide)⟩

/-! ## Claim C3: register state between sibling trials -/

/-- C3 counterexample, on the program `Bxl 1; Out 5; Jnz 0` (flip the
low bit of B, emit B mod 8, loop).  A first trial at candidate value 0
returns the machine with register B = 1 — the value left by its
execution, not the original B = 0 — and that is exactly the machine the
reverse search threads into the next sibling trial.  A sibling trial at
the same candidate value 0 run on that threaded machine emits digit 0,
while the same trial from the original machine emits digit 1: the
registers left by the previous sibling trial do carry over. -/
theorem claim3_counterexample :
    Computer.run_program_once 10 ⟨0, 0, 0, [.Bxl ⟨1⟩, .Out ⟨5⟩, .Jnz ⟨0⟩], 0, []⟩ =
      OnceResult.emitted ⟨0, 1, 0, [.Bxl ⟨1⟩, .Out ⟨5⟩, .Jnz ⟨0⟩], 3, [1]⟩ 1 ∧
    (1 : Nat) ≠ 0 ∧
    Computer.run_program_once 10 ⟨0, 1, 0, [.Bxl ⟨1⟩, .Out ⟨5⟩, .Jnz ⟨0⟩], 3, [1]⟩ =
      OnceResult.emitted ⟨0, 0, 0, [.Bxl ⟨1⟩, .Out ⟨5⟩, .Jnz ⟨0⟩], 3, [0]⟩ 0 ∧
    (0 : Nat) ≠ 1 := by
  decide

/-- C3 amended: a single-cycle trial on candidate value `a` starts from
the threaded machine with only the pointer and output reset and
register A set to `a`; registers B and C keep the values the previous
sibling trial's execution left in the threaded machine. -/
theorem claim3_amended (fuel : Nat) (c : Computer) (a : Nat) :
    Computer.run_program_once fuel { c with register_a := a } =
      Computer.run_once_loop c.instructions.length fuel
        ⟨a, c.register_b, c.register_c, c.instructions, 0, []⟩ :=
  rfl

/-! ## Claim C5: the exhausted top-level search -/

/-- C5: on the program `Out 1; Jnz 0` every single-cycle trial emits the
digit 1, so the top-level target digit 0 never matches and the search
exhausts all eight of its own candidates.  The search then returns the
flag `false` paired with the initial register value 0 — and
`find_self_outputing_register_a` discards the flag and returns 0 as an
ordinary answer instead of being fatal. -/
theorem claim5_code_eval :
    (Computer.reverse_engineer_register_a 10 4 ⟨0, 0, 0, [.Out ⟨1⟩, .Jnz ⟨0⟩], 0, []⟩ 0
        [5, 1, 3, 0]).map (fun r => (r.2.1, r.2.2)) = some (false, 0) ∧
    Computer.find_self_outputing_register_a 10 ⟨0, 0, 0, [.Out ⟨1⟩, .Jnz ⟨0⟩], 0, []⟩ =
      some 0 := by
  decide

/-! ## Claim C9: no-jump programs -/

/-- C9 counterexample: the two-instruction program `Cdv 7; Adv 0`
contains no jump-if-A instruction, yet a full run is fatal at its very
first fetch-execute step (reserved combo operand 7), so it does not
terminate after exactly `len(program) = 2` steps executing each
instruction once. -/
theorem claim9_counterexample :
    ([Instruction.Cdv ⟨7⟩, Instruction.Adv ⟨0⟩] : List Instruction).countP Instruction.is_jnz
      = 0 ∧
    (Computer.run_loop_trace 10 ⟨5, 0, 0, [.Cdv ⟨7⟩, .Adv ⟨0⟩], 0, []⟩).1 = RunResult.fatal ∧
    (Computer.run_loop_trace 10 ⟨5, 0, 0, [.Cdv ⟨7⟩, .Adv ⟨0⟩], 0, []⟩).2.length = 1 ∧
    ([Instruction.Cdv ⟨7⟩, Instruction.Adv ⟨0⟩] : List Instruction).length = 2 := by
  decide

/-- Helper for C9: a successful `perform_adv` requests a pointer
advance and does not itself change the pointer or the program. -/
theorem perform_adv_shape (c : Computer) (op : ComboOperand) (q : Computer) (b : Bool)
    (h : c.perform_adv op = some (q, b)) :
    b = true ∧ q.pointer = c.pointer ∧ q.instructions = c.instructions := by
  simp only [Computer.perform_adv] at h
  repeat' split at h
  · exact absurd h (by simp)
  · rw [Option.some.injEq, Prod.mk.injEq] at h
    obtain ⟨hq, hb⟩ := h
    subst hq
    subst hb
    exact ⟨rfl, rfl, rfl⟩
  · exact absurd h (by simp)

/-- Helper for C9: same shape fact for `perform_bxl`. -/
theorem perform_bxl_shape (c : Computer) (lit : LiteralOperand) (q : Computer) (b : Bool)
    (h : c.perform_bxl lit = some (q, b)) :
    b = true ∧ q.pointer = c.pointer ∧ q.instructions = c.instructions := by
  simp only [Computer.perform_bxl] at h
  rw [Option.some.injEq, Prod.mk.injEq] at h
  obtain ⟨hq, hb⟩ := h
  subst hq
  subst hb
  exact ⟨rfl, rfl, rfl⟩

/-- Helper for C9: same shape fact for `perform_bst`. -/
theorem perform_bst_shape (c : Computer) (op : ComboOperand) (q : Computer) (b : Bool)
    (h : c.perform_bst op = some (q, b)) :
    b = true ∧ q.pointer = c.pointer ∧ q.instructions = c.instructions := by
  simp only [Computer.perform_bst] at h
  repeat' split at h
  · exact absurd h (by simp)
  · rw [Option.some.injEq, Prod.mk.injEq] at h
    obtain ⟨hq, hb⟩ := h
    subst hq
    subst hb
    exact ⟨rfl, rfl, rfl⟩

/-- Helper for C9: same shape fact for `perform_bxc`. -/
theorem perform_bxc_shape (c : Computer) (q : Computer) (b : Bool)
    (h : c.perform_bxc = some (q, b)) :
    b = true ∧ q.pointer = c.pointer ∧ q.instructions = c.instructions := by
  simp only [Computer.perform_bxc] at h
  rw [Option.some.injEq, Prod.mk.injEq] at h
  obtain ⟨hq, hb⟩ := h
  subst hq
  subst hb
  exact ⟨rfl, rfl, rfl⟩

/-- Helper for C9: same shape fact for `perform_out`. -/
theorem perform_out_shape (c : Computer) (op : ComboOperand) (q : Computer) (b : Bool)
    (h : c.perform_out op = some (q, b)) :
    b = true ∧ q.pointer = c.pointer ∧ q.instructions = c.instructions := by
  simp only [Computer.perform_out] at h
  repeat' split at h
  · exact absurd h (by simp)
  · rw [Option.some.injEq, Prod.mk.injEq] at h
    obtain ⟨hq, hb⟩ := h
    subst hq
    subst hb
    exact ⟨rfl, rfl, rfl⟩

/-- Helper for C9: same shape fact for `perform_bdv`. -/
theorem perform_bdv_shape (c : Computer) (op : ComboOperand) (q : Computer) (b : Bool)
    (h : c.perform_bdv op = some (q, b)) :
    b = true ∧ q.pointer = c.pointer ∧ q.instructions = c.instructions := by
  simp only [Computer.perform_bdv] at h
  repeat' split at h
  · exact absurd h (by simp)
  · rw [Option.some.injEq, Prod.mk.injEq] at h
    obtain ⟨hq, hb⟩ := h
    subst hq
    subst hb
    exact ⟨rfl, rfl, rfl⟩
  · exact absurd h (by simp)

/-- Helper for C9: same shape fact for `perform_cdv`. -/
theorem perform_cdv_shape (c : Computer) (op : ComboOperand) (q : Computer) (b : Bool)
    (h : c.perform_cdv op = some (q, b)) :
    b = true ∧ q.pointer = c.pointer ∧ q.instructions = c.instructions := by
  simp only [Computer.perform_cdv] at h
  repeat' split at h
  · exact absurd h (by simp)
  · rw [Option.some.injEq, Prod.mk.injEq] at h
    obtain ⟨hq, hb⟩ := h
    subst hq
    subst hb
    exact ⟨rfl, rfl, rfl⟩
  · exact absurd h (by simp)

/-- Helper for C9: executing any instruction other than jump-if-A, when
it does not panic, advances the pointer by exactly one and leaves the
instruction list unchanged. -/
theorem exec_no_jnz (c : Computer) (i : Instruction) (c₁ : Computer)
    (hj : i.is_jnz = false) (h : Computer.execute_instruction c i = some c₁) :
    c₁.pointer = c.pointer + 1 ∧ c₁.instructions = c.instructions := by
  cases i with
  | Jnz op => simp [Instruction.is_jnz] at hj
  | Adv op =>
    simp only [Computer.execute_instruction] at h
    rcases hp : c.perform_adv op with _ | ⟨q, b⟩ <;> rw [hp] at h
    · exact absurd h (by simp)
    · obtain ⟨hb, hpt, hin⟩ := perform_adv_shape c op q b hp
      subst hb
      have h₁ : some { q with pointer := q.pointer + 1 } = some c₁ := h
      obtain rfl := Option.some.inj h₁
      exact ⟨by simp [hpt], by simp [hin]⟩
  | Bxl op =>
    simp only [Computer.execute_instruction] at h
    rcases hp : c.perform_bxl op with _ | ⟨q, b⟩ <;> rw [hp] at h
    · exact absurd h (by simp)
    · obtain ⟨hb, hpt, hin⟩ := perform_bxl_shape c op q b hp
      subst hb
      have h₁ : some { q with pointer := q.pointer + 1 } = some c₁ := h
      obtain rfl := Option.some.inj h₁
      exact ⟨by simp [hpt], by simp [hin]⟩
  | Bst op =>
    simp only [Computer.execute_instruction] at h
    rcases hp : c.perform_bst op with _ | ⟨q, b⟩ <;> rw [hp] at h
    · exact absurd h (by simp)
    · obtain ⟨hb, hpt, hin⟩ := perform_bst_shape c op q b hp
      subst hb
      have h₁ : some { q with pointer := q.pointer + 1 } = some c₁ := h
      obtain rfl := Option.some.inj h₁
      exact ⟨by simp [hpt], by simp [hin]⟩
  | Bxc op =>
    simp only [Computer.execute_instruction] at h
    rcases hp : c.perform_bxc with _ | ⟨q, b⟩ <;> rw [hp] at h
    · exact absurd h (by simp)
    · obtain ⟨hb, hpt, hin⟩ := perform_bxc_shape c q b hp
      subst hb
      have h₁ : some { q with pointer := q.pointer + 1 } = some c₁ := h
      obtain rfl := Option.some.inj h₁
      exact ⟨by simp [hpt], by simp [hin]⟩
  | Out op =>
    simp only [Computer.execute_instruction] at h
    rcases hp : c.perform_out op with _ | ⟨q, b⟩ <;> rw [hp] at h
    · exact absurd h (by simp)
    · obtain ⟨hb, hpt, hin⟩ := perform_out_shape c op q b hp
      subst hb
      have h₁ : some { q with pointer := q.pointer + 1 } = some c₁ := h
      obtain rfl := Option.some.inj h₁
      exact ⟨by simp [hpt], by simp [hin]⟩
  | Bdv op =>
    simp only [Computer.execute_instruction] at h
    rcases hp : c.perform_bdv op with _ | ⟨q, b⟩ <;> rw [hp] at h
    · exact absurd h (by simp)
    · obtain ⟨hb, hpt, hin⟩ := perform_bdv_shape c op q b hp
      subst hb
      have h₁ : some { q with pointer := q.pointer + 1 } = some c₁ := h
      obtain rfl := Option.some.inj h₁
      exact ⟨by simp [hpt], by simp [hin]⟩
  | Cdv op =>
    simp only [Computer.execute_instruction] at h
    rcases hp : c.perform_cdv op with _ | ⟨q, b⟩ <;> rw [hp] at h
    · exact absurd h (by simp)
    · obtain ⟨hb, hpt, hin⟩ := perform_cdv_shape c op q b hp
      subst hb
      have h₁ : some { q with pointer := q.pointer + 1 } = some c₁ := h
      obtain rfl := Option.some.inj h₁
      exact ⟨by simp [hpt], by simp [hin]⟩

/-- Helper for C9: on a program without jump-if-A instructions, the
fetch-execute loop either aborts fatally or completes normally having
executed exactly the instructions from the current pointer to the end
of the program, in order. -/
theorem run_loop_trace_no_jnz :
    ∀ (fuel : Nat) (c : Computer),
      (∀ i ∈ c.instructions, i.is_jnz = false) →
      c.pointer ≤ c.instructions.length →
      c.instructions.length - c.pointer < fuel →
      (Computer.run_loop_trace fuel c).1 = RunResult.fatal ∨
      ∃ c₁, (Computer.run_loop_trace fuel c).1 = RunResult.ok c₁ ∧
        (Computer.run_loop_trace fuel c).2 = c.instructions.drop c.pointer ∧
        c₁.pointer = c.instructions.length ∧ c₁.instructions = c.instructions := by
  intro fuel
  induction fuel with
  | zero => intro c _ _ hlt; omega
  | succ fuel ih =>
    intro c hnoj hle hlt
    rcases Nat.eq_or_lt_of_le hle with heq | hlt'
    · have hf : c.fetch_instruction = none := by
        simp only [Computer.fetch_instruction]
        exact List.getElem?_eq_none (le_of_eq heq.symm)
      right
      refine ⟨c, ?_, ?_, heq, rfl⟩
      · simp [Computer.run_loop_trace, hf]
      · simp [Computer.run_loop_trace, hf, heq, List.drop_length]
    · have hf : c.fetch_instruction = some (c.instructions[c.pointer]) := by
        simp only [Computer.fetch_instruction]
        exact List.getElem?_eq_getElem hlt'
      rcases he : c.execute_instruction (c.instructions[c.pointer]) with _ | c₂
      · left
        simp [Computer.run_loop_trace, hf, he]
      · have hadv := exec_no_jnz c _ c₂ (hnoj _ (List.getElem_mem hlt')) he
        have hptp := hadv.1
        have hlen : c₂.instructions.length = c.instructions.length := by rw [hadv.2]
        have hrec := ih c₂ (by rw [hadv.2]; exact hnoj) (by omega) (by omega)
        rcases hrec with hfat | ⟨c₃, h1, h2, h3, h4⟩
        · left
          simp [Computer.run_loop_trace, hf, he, hfat]
        · right
          refine ⟨c₃, ?_, ?_, ?_, ?_⟩
          · simp [Computer.run_loop_trace, hf, he, h1]
          · simp only [Computer.run_loop_trace, hf, he]
            rw [List.drop_eq_getElem_cons hlt']
            simp only [h2, hadv.2, hadv.1]
          · rw [h3, hadv.2]
          · rw [h4, hadv.2]

/-- C9 amended: for every program containing no jump-if-A instruction, a
full run either aborts fatally (a reserved combo operand or an
overflowing exponent) or terminates after exactly `len(program)`
fetch-execute steps, executing each instruction once in order (the
executed-instruction trace is the program itself and the pointer ends
at the program length). -/
theorem claim9_amended (c : Computer) (fuel : Nat)
    (hnoj : ∀ i ∈ c.instructions, i.is_jnz = false)
    (hstart : c.pointer = 0)
    (hfuel : c.instructions.length < fuel) :
    (Computer.run_loop_trace fuel c).1 = RunResult.fatal ∨
    ∃ c₁, (Computer.run_loop_trace fuel c).1 = RunResult.ok c₁ ∧
      (Computer.run_loop_trace fuel c).2 = c.instructions ∧
      c₁.pointer = c.instructions.length := by
  rcases run_loop_trace_no_jnz fuel c hnoj (by omega) (by omega) with h | ⟨c₁, h1, h2, h3, _⟩
  · exact Or.inl h
  · exact Or.inr ⟨c₁, h1, by rw [h2, hstart, List.drop_zero], h3⟩

/-- Witness for C9 amended on the jump-free program `Adv 1; Out 4`. -/
theorem claim9_amended_witness :
    (∀ i ∈ ([.Adv ⟨1⟩, .Out ⟨4⟩] : List Instruction), i.is_jnz = false) ∧
    (([.Adv ⟨1⟩, .Out ⟨4⟩] : List Instruction).length < 5) ∧
    ((Computer.run_loop_trace 5 ⟨7, 0, 0, [.Adv ⟨1⟩, .Out ⟨4⟩], 0, []⟩).1 = RunResult.fatal ∨
      ∃ c₁, (Computer.run_loop_trace 5 ⟨7, 0, 0, [.Adv ⟨1⟩, .Out ⟨4⟩], 0, []⟩).1 =
          RunResult.ok c₁ ∧
        (Computer.run_loop_trace 5 ⟨7, 0, 0, [.Adv ⟨1⟩, .Out ⟨4⟩], 0, []⟩).2 =
          ([.Adv ⟨1⟩, .Out ⟨4⟩] : List Instruction) ∧
        c₁.pointer = ([.Adv ⟨1⟩, .Out ⟨4⟩] : List Instruction).length) :=
  ⟨by decide, by decide,
    claim9_amended ⟨7, 0, 0, [.Adv ⟨1⟩, .Out ⟨4⟩], 0, []⟩ 5 (by decide) rfl (by decide)⟩

/-! ## Claim C1: the reverse search -/

/-- C1 counterexample, on the loaded single-instruction program
`Out 4` (flattened encoding `[5, 4]`).  The reverse search reports
success (`finished = true`) and returns register value 37, yet a full
run of the program with initial A = 37 halts with output `[5]`, which
is not the flattened program `[5, 4]` — indeed no initial A reproduces
it, since a full run emits exactly one digit.  The reported value is
therefore not a minimal self-reproducing value. -/
theorem claim1_counterexample :
    (Computer.reverse_engineer_register_a 10 2 ⟨0, 0, 0, [.Out ⟨4⟩], 0, []⟩ 0
        [5, 4]).map (fun r => (r.2.1, r.2.2)) = some (true, 37) ∧
    Computer.find_self_outputing_register_a 10 ⟨0, 0, 0, [.Out ⟨4⟩], 0, []⟩ = some 37 ∧
    Computer.run_loop 10 ⟨37, 0, 0, [.Out ⟨4⟩], 0, []⟩ =
      RunResult.ok ⟨37, 0, 0, [.Out ⟨4⟩], 1, [5]⟩ ∧
    ([5] : List Nat) ≠ [5, 4] := by
  decide

/-- Helper for C1: `selfOut` never produces the empty list. -/
theorem selfOut_ne_nil (a : Nat) : selfOut a ≠ [] := by
  rw [selfOut]
  split <;> simp

/-- Helper for C1: one cycle of `exampleProgram` (three fetch-execute
steps from pointer 0) divides A by 8, emits the new A mod 8 and either
loops back to pointer 0 or, when A has reached 0, stops at pointer 3. -/
theorem run_loop_example_cycle (fuel a b₀ c₀ : Nat) (o : List Nat) :
    Computer.run_loop (fuel + 3) ⟨a, b₀, c₀, exampleProgram, 0, o⟩ =
      if a / 8 = 0 then
        Computer.run_loop fuel ⟨a / 8, b₀, c₀, exampleProgram, 3, o ++ [a / 8 % 8]⟩
      else
        Computer.run_loop fuel ⟨a / 8, b₀, c₀, exampleProgram, 0, o ++ [a / 8 % 8]⟩ := by
  by_cases h8 : a / 8 = 0 <;>
    simp [Computer.run_loop, Computer.fetch_instruction, Computer.execute_instruction,
      Computer.perform_adv, Computer.perform_out, Computer.perform_jnz,
      Computer.get_combo_operand_value, LiteralOperand.value, exampleProgram, h8]

/-- Helper for C1: from pointer 3 the fetch fails and the run completes
normally with the machine unchanged. -/
theorem run_loop_example_halt (fuel a b₀ c₀ : Nat) (o : List Nat) :
    Computer.run_loop (fuel + 1) ⟨a, b₀, c₀, exampleProgram, 3, o⟩ =
      RunResult.ok ⟨a, b₀, c₀, exampleProgram, 3, o⟩ := by
  simp [Computer.run_loop, Computer.fetch_instruction, exampleProgram]

/-- Helper for C1: whenever a full run of `exampleProgram` from pointer
0 completes normally, the final output is the prior output followed by
`selfOut` of the initial register A value. -/
theorem run_loop_example_output :
    ∀ (fuel a b₀ c₀ : Nat) (o : List Nat) (c₁ : Computer),
      Computer.run_loop fuel ⟨a, b₀, c₀, exampleProgram, 0, o⟩ = RunResult.ok c₁ →
      c₁.output = o ++ selfOut a := by
  intro fuel
  induction fuel using Nat.strong_induction_on with
  | _ fuel ih =>
    intro a b₀ c₀ o c₁ h
    by_cases hf : fuel < 4
    · exfalso
      by_cases h8 : a / 8 = 0 <;>
        (interval_cases fuel <;>
          simp [Computer.run_loop, Computer.fetch_instruction, Computer.execute_instruction,
            Computer.perform_adv, Computer.perform_out, Computer.perform_jnz,
            Computer.get_combo_operand_value, exampleProgram, h8] at h)
    · obtain ⟨fuel₃, rfl⟩ : ∃ k, fuel = k + 3 := ⟨fuel - 3, by omega⟩
      rw [run_loop_example_cycle] at h
      by_cases h8 : a / 8 = 0
      · rw [if_pos h8] at h
        rcases fuel₃ with _ | fuel₄
        · simp [Computer.run_loop] at h
        · rw [run_loop_example_halt] at h
          obtain rfl := RunResult.ok.inj h
          rw [selfOut]
          simp [h8]
      · rw [if_neg h8] at h
        have hrec := ih fuel₃ (by omega) (a / 8) b₀ c₀ (o ++ [a / 8 % 8]) c₁ h
        rw [hrec]
        conv_rhs => rw [selfOut]
        rw [dif_neg h8]
        simp

/-- Helper for C1: the only initial register A values whose
`exampleProgram` output is the flattened program `[0,3,5,4,3,0]` lie in
`[117440, 117448)`; in particular they are all at least 117440. -/
theorem selfOut_target (a : Nat) (h : selfOut a = [0, 3, 5, 4, 3, 0]) : 117440 ≤ a := by
  rw [selfOut] at h
  split at h
  · simp at h
  · rename_i h1
    simp only [List.cons.injEq] at h
    obtain ⟨hd1, h⟩ := h
    rw [selfOut] at h
    split at h
    · simp at h
    · rename_i h2
      simp only [List.cons.injEq] at h
      obtain ⟨hd2, h⟩ := h
      rw [selfOut] at h
      split at h
      · simp at h
      · rename_i h3
        simp only [List.cons.injEq] at h
        obtain ⟨hd3, h⟩ := h
        rw [selfOut] at h
        split at h
        · simp at h
        · rename_i h4
          simp only [List.cons.injEq] at h
          obtain ⟨hd4, h⟩ := h
          rw [selfOut] at h
          split at h
          · simp at h
          · rename_i h5
            simp only [List.cons.injEq] at h
            obtain ⟨hd5, h⟩ := h
            rw [selfOut] at h
            split at h
            · rename_i h6
              omega
            · rename_i h6
              simp only [List.cons.injEq] at h
              exact absurd h.2 (selfOut_ne_nil _)

/-- C1 amended: for the spec's worked example program `[0,3,5,4,3,0]`
(with registers B = C = 0), the reverse search reports success and
returns 117440; a full run with initial A = 117440 outputs exactly the
flattened program; and every initial A whose full run completes with
that output is at least 117440 — so the reported value is the minimal
self-reproducing register value for this program.  (For an arbitrary
loaded program the reported value need not reproduce the program at
all, as the counterexample shows.) -/
theorem claim1_amended :
    Computer.find_self_outputing_register_a 10 ⟨0, 0, 0, exampleProgram, 0, []⟩ =
      some 117440 ∧
    (Computer.reverse_engineer_register_a 10 6 ⟨0, 0, 0, exampleProgram, 0, []⟩ 0
        [0, 3, 5, 4, 3, 0]).map (fun r => r.2.1) = some true ∧
    Computer.run_loop 25 ⟨117440, 0, 0, exampleProgram, 0, []⟩ =
      RunResult.ok ⟨0, 0, 0, exampleProgram, 3, [0, 3, 5, 4, 3, 0]⟩ ∧
    ∀ (fuel a : Nat) (c₁ : Computer),
      Computer.run_loop fuel ⟨a, 0, 0, exampleProgram, 0, []⟩ = RunResult.ok c₁ →
      c₁.output = [0, 3, 5, 4, 3, 0] →
      117440 ≤ a := by
  refine ⟨by decide, by decide, by decide, ?_⟩
  intro fuel a c₁ h hout
  have hsel := run_loop_example_output fuel a 0 0 [] c₁ h
  rw [hout] at hsel
  exact selfOut_target a (by simpa using hsel.symm)

/-- Witness for C1 amended: the minimality bound applied at the found
value 117440 itself. -/
theorem claim1_amended_witness :
    Computer.run_loop 25 ⟨117440, 0, 0, exampleProgram, 0, []⟩ =
      RunResult.ok ⟨0, 0, 0, exampleProgram, 3, [0, 3, 5, 4, 3, 0]⟩ ∧
    117440 ≤ 117440 :=
  ⟨by decide,
    claim1_amended.2.2.2 25 117440 ⟨0, 0, 0, exampleProgram, 3, [0, 3, 5, 4, 3, 0]⟩
      (by decide) rfl⟩
